import Mathlib

set_option maxRecDepth 100000

/- Shallow embedding of the payments engine
   (src/main.rs, src/client.rs, src/transaction.rs).

   Conventions:
   * rust_decimal values are modelled as exact integers (Int) carrying the
     rust_decimal magnitude bound 2^96 - 1.  checked_add / checked_sub succeed
     exactly when the exact result stays inside [-(2^96 - 1), 2^96 - 1]; this
     matches the library behaviour on integral decimals, and the repository
     itself never manipulates the scale.
   * anyhow errors are modelled by the ProcError enumeration; the comment on
     each constructor gives the source error message it stands for.
   * The HashMap of TransactionDb and the IndexMap of ClientDb are modelled as
     association lists: lookup scans from the front, insertion appends at the
     back (IndexMap iterates in insertion order, which is the output order),
     and updates are in place.
   * A Rust mutator taking &mut self that can fail mid-way is modelled as a
     function returning (new state, Option error), so that a mutation that is
     only partially applied before the failure is represented faithfully.
-/

abbrev ClientId := Nat

abbrev TransactionId := Nat

def DECIMAL_MAX : Int := 2 ^ 96 - 1

def checkedAdd (a b : Int) : Option Int :=
  if -DECIMAL_MAX ≤ a + b ∧ a + b ≤ DECIMAL_MAX then some (a + b) else none

def checkedSub (a b : Int) : Option Int :=
  if -DECIMAL_MAX ≤ a - b ∧ a - b ≤ DECIMAL_MAX then some (a - b) else none

/-- Domain errors of the engine, one constructor per anyhow error site. -/
inductive ProcError where
  /-- transaction.rs: "transaction already exists" -/
  | duplicateTransaction
  /-- transaction.rs: "transaction does not exist" -/
  | unknownTransaction
  /-- transaction.rs: "transaction (..) cannot be disputed" or
      "transaction (..) is not under dispute" -/
  | invalidStateTransition
  /-- client.rs / transaction.rs: "withdrawal amount should be > 0",
      "deposit amount must be > 0" -/
  | invalidAmount
  /-- main.rs: "amount is not expected for dispute/resolve/chargeback" -/
  | unexpectedAmount
  /-- main.rs: "no amount for deposit/withdrawal" -/
  | missingAmount
  /-- client.rs: "not enough funds" -/
  | insufficientFunds
  /-- client.rs: "available/total/held amount overflow" -/
  | arithmeticOverflow
  /-- client.rs: "available/total/held amount underflow" -/
  | arithmeticUnderflow
  deriving DecidableEq

/-- client.rs AccountState (available, held, total, locked). -/
structure AccountState where
  available : Int
  held : Int
  total : Int
  locked : Bool
  deriving DecidableEq

/-- The Default derive of AccountState: all balances zero, not locked. -/
def AccountState.initial : AccountState :=
  { available := 0, held := 0, total := 0, locked := false }

/-- client.rs AccountState::deposit: compute both new fields, assign only
    after both checked additions succeeded. -/
def AccountState.deposit (s : AccountState) (amount : Int) :
    AccountState × Option ProcError :=
  match checkedAdd s.available amount with
  | none => (s, some .arithmeticOverflow)
  | some newAvailable =>
    match checkedAdd s.total amount with
    | none => (s, some .arithmeticOverflow)
    | some newTotal =>
      ({ s with available := newAvailable, total := newTotal }, none)

/-- client.rs AuthorizedWithdrawal: a value proving the funds check passed. -/
structure AuthorizedWithdrawal where
  transaction_id : TransactionId
  amount : Int
  deriving DecidableEq

/-- client.rs AccountState::authorize_withdrawal: amount positivity first,
    then the funds check; no mutation.  The locked check is commented out in
    the source. -/
def AccountState.authorize_withdrawal (s : AccountState)
    (transaction_id : TransactionId) (amount : Int) :
    Except ProcError AuthorizedWithdrawal :=
  if amount > 0 then
    if s.available ≥ amount then
      .ok { transaction_id := transaction_id, amount := amount }
    else
      .error .insufficientFunds
  else
    .error .invalidAmount

/-- client.rs AccountState::withdraw: compute both, assign after both. -/
def AccountState.withdraw (s : AccountState) (amount : Int) :
    AccountState × Option ProcError :=
  match checkedSub s.available amount with
  | none => (s, some .arithmeticUnderflow)
  | some newAvailable =>
    match checkedSub s.total amount with
    | none => (s, some .arithmeticUnderflow)
    | some newTotal =>
      ({ s with available := newAvailable, total := newTotal }, none)

/-- client.rs AccountState::dispute_deposit.  Unlike the other mutators the
    source assigns self.available before computing the held addition, so a
    held overflow leaves the available subtraction in place. -/
def AccountState.dispute_deposit (s : AccountState) (amount : Int) :
    AccountState × Option ProcError :=
  match checkedSub s.available amount with
  | none => (s, some .arithmeticUnderflow)
  | some newAvailable =>
    match checkedAdd s.held amount with
    | none =>
      ({ s with available := newAvailable }, some .arithmeticOverflow)
    | some newHeld =>
      ({ s with available := newAvailable, held := newHeld }, none)

/-- client.rs AccountState::resolve_dispute: compute both, assign after both. -/
def AccountState.resolve_dispute (s : AccountState) (amount : Int) :
    AccountState × Option ProcError :=
  match checkedSub s.held amount with
  | none => (s, some .arithmeticUnderflow)
  | some newHeld =>
    match checkedAdd s.available amount with
    | none => (s, some .arithmeticOverflow)
    | some newAvailable =>
      ({ s with held := newHeld, available := newAvailable }, none)

/-- client.rs AccountState::chargeback: compute both, assign after both,
    and set locked. -/
def AccountState.chargeback (s : AccountState) (amount : Int) :
    AccountState × Option ProcError :=
  match checkedSub s.held amount with
  | none => (s, some .arithmeticUnderflow)
  | some newHeld =>
    match checkedSub s.total amount with
    | none => (s, some .arithmeticUnderflow)
    | some newTotal =>
      ({ s with held := newHeld, total := newTotal, locked := true }, none)

/-- transaction.rs TransactionStatus. -/
inductive TransactionStatus where
  | deposited
  | withdrawn
  | disputed
  | resolved
  | chargedback
  deriving DecidableEq

/-- transaction.rs TransactionState: amount and current status. -/
structure TransactionState where
  amount : Int
  status : TransactionStatus
  deriving DecidableEq

abbrev Ledger := List (TransactionId × TransactionState)

abbrev Clients := List (ClientId × AccountState)

/-- Association-list lookup keyed by Nat. -/
def alistLookup {β : Type} : List (Nat × β) → Nat → Option β
  | [], _ => none
  | (k, v) :: rest, key => if key = k then some v else alistLookup rest key

/-- Association-list in-place update; the identity when the key is absent. -/
def alistSet {β : Type} : List (Nat × β) → Nat → β → List (Nat × β)
  | [], _, _ => []
  | (k, v) :: rest, key, newVal =>
    if key = k then (k, newVal) :: rest else (k, v) :: alistSet rest key newVal

/-- transaction.rs TransactionDb::deposit: positivity check, then the
    vacant-entry check, then insertion with status Deposited; returns the
    persisted amount. -/
def TransactionDb.deposit (txs : Ledger) (transaction_id : TransactionId)
    (amount : Int) : Except ProcError (Ledger × Int) :=
  if amount > 0 then
    match alistLookup txs transaction_id with
    | some _ => .error .duplicateTransaction
    | none =>
      .ok (txs ++ [(transaction_id, { amount := amount, status := .deposited })],
           amount)
  else
    .error .invalidAmount

/-- transaction.rs TransactionDb::withdraw: consumes an AuthorizedWithdrawal,
    vacant-entry check, insertion with status Withdrawn. -/
def TransactionDb.withdraw (txs : Ledger) (w : AuthorizedWithdrawal) :
    Except ProcError (Ledger × Int) :=
  match alistLookup txs w.transaction_id with
  | some _ => .error .duplicateTransaction
  | none =>
    .ok (txs ++ [(w.transaction_id, { amount := w.amount, status := .withdrawn })],
         w.amount)

/-- transaction.rs TransactionDb::dispute: requires an existing record with
    status exactly Deposited; transitions it to Disputed and returns the
    stored amount. -/
def TransactionDb.dispute (txs : Ledger) (transaction_id : TransactionId) :
    Except ProcError (Ledger × Int) :=
  match alistLookup txs transaction_id with
  | none => .error .unknownTransaction
  | some state =>
    if state.status = .deposited then
      .ok (alistSet txs transaction_id { state with status := .disputed },
           state.amount)
    else
      .error .invalidStateTransition

/-- transaction.rs TransactionDb::resolve: requires status Disputed;
    transitions to Resolved. -/
def TransactionDb.resolve (txs : Ledger) (transaction_id : TransactionId) :
    Except ProcError (Ledger × Int) :=
  match alistLookup txs transaction_id with
  | none => .error .unknownTransaction
  | some state =>
    if state.status = .disputed then
      .ok (alistSet txs transaction_id { state with status := .resolved },
           state.amount)
    else
      .error .invalidStateTransition

/-- transaction.rs TransactionDb::chargeback: requires status Disputed;
    transitions to Chargedback. -/
def TransactionDb.chargeback (txs : Ledger) (transaction_id : TransactionId) :
    Except ProcError (Ledger × Int) :=
  match alistLookup txs transaction_id with
  | none => .error .unknownTransaction
  | some state =>
    if state.status = .disputed then
      .ok (alistSet txs transaction_id { state with status := .chargedback },
           state.amount)
    else
      .error .invalidStateTransition

/-- client.rs ClientDb::get_mut, creation half: entry(client).or_default()
    appends a default account when the client is absent. -/
def ClientDb.ensure (clients : Clients) (c : ClientId) : Clients :=
  match alistLookup clients c with
  | some _ => clients
  | none => clients ++ [(c, AccountState.initial)]

/-- client.rs ClientDb::get_mut, read half: the account stored for a client,
    defaulting to the fresh account. -/
def ClientDb.getOr (clients : Clients) (c : ClientId) : AccountState :=
  (alistLookup clients c).getD AccountState.initial

/-- main.rs OperationType. -/
inductive OperationType where
  | deposit
  | withdrawal
  | dispute
  | resolve
  | chargeback
  deriving DecidableEq

/-- main.rs Operation: one decoded CSV row. -/
structure Operation where
  op_type : OperationType
  client : ClientId
  tx : TransactionId
  amount : Option Int
  deriving DecidableEq

/-- The two stores threaded through main.rs process_csv. -/
structure SysState where
  clients : Clients
  transactions : Ledger
  deriving DecidableEq

def SysState.initial : SysState :=
  { clients := [], transactions := [] }

/-- main.rs process_operation.  The first step is clients.get_mut, which
    creates the account when absent (ClientDb.ensure) and yields the stored
    account (ClientDb.getOr).  Mutators return (state, error); the mutated
    account is written back in place, mirroring &mut semantics, and the
    error, if any, is propagated. -/
def process_operation (st : SysState) (op : Operation) :
    SysState × Option ProcError :=
  match op.op_type with
  | .deposit =>
    match op.amount with
    | none =>
      ({ st with clients := ClientDb.ensure st.clients op.client },
       some .missingAmount)
    | some amount =>
      match TransactionDb.deposit st.transactions op.tx amount with
      | .error e =>
        ({ st with clients := ClientDb.ensure st.clients op.client }, some e)
      | .ok (txs, recorded) =>
        let pr := AccountState.deposit
          (ClientDb.getOr (ClientDb.ensure st.clients op.client) op.client) recorded
        ({ clients := alistSet (ClientDb.ensure st.clients op.client) op.client pr.1,
           transactions := txs }, pr.2)
  | .withdrawal =>
    match op.amount with
    | none =>
      ({ st with clients := ClientDb.ensure st.clients op.client },
       some .missingAmount)
    | some amount =>
      match AccountState.authorize_withdrawal
          (ClientDb.getOr (ClientDb.ensure st.clients op.client) op.client)
          op.tx amount with
      | .error e =>
        ({ st with clients := ClientDb.ensure st.clients op.client }, some e)
      | .ok authorized =>
        match TransactionDb.withdraw st.transactions authorized with
        | .error e =>
          ({ st with clients := ClientDb.ensure st.clients op.client }, some e)
        | .ok (txs, recorded) =>
          let pr := AccountState.withdraw
            (ClientDb.getOr (ClientDb.ensure st.clients op.client) op.client) recorded
          ({ clients := alistSet (ClientDb.ensure st.clients op.client) op.client pr.1,
             transactions := txs }, pr.2)
  | .dispute =>
    match op.amount with
    | some _ =>
      ({ st with clients := ClientDb.ensure st.clients op.client },
       some .unexpectedAmount)
    | none =>
      match TransactionDb.dispute st.transactions op.tx with
      | .error e =>
        ({ st with clients := ClientDb.ensure st.clients op.client }, some e)
      | .ok (txs, disputed) =>
        let pr := AccountState.dispute_deposit
          (ClientDb.getOr (ClientDb.ensure st.clients op.client) op.client) disputed
        ({ clients := alistSet (ClientDb.ensure st.clients op.client) op.client pr.1,
           transactions := txs }, pr.2)
  | .resolve =>
    match op.amount with
    | some _ =>
      ({ st with clients := ClientDb.ensure st.clients op.client },
       some .unexpectedAmount)
    | none =>
      match TransactionDb.resolve st.transactions op.tx with
      | .error e =>
        ({ st with clients := ClientDb.ensure st.clients op.client }, some e)
      | .ok (txs, resolved) =>
        let pr := AccountState.resolve_dispute
          (ClientDb.getOr (ClientDb.ensure st.clients op.client) op.client) resolved
        ({ clients := alistSet (ClientDb.ensure st.clients op.client) op.client pr.1,
           transactions := txs }, pr.2)
  | .chargeback =>
    match op.amount with
    | some _ =>
      ({ st with clients := ClientDb.ensure st.clients op.client },
       some .unexpectedAmount)
    | none =>
      match TransactionDb.chargeback st.transactions op.tx with
      | .error e =>
        ({ st with clients := ClientDb.ensure st.clients op.client }, some e)
      | .ok (txs, chargedback) =>
        let pr := AccountState.chargeback
          (ClientDb.getOr (ClientDb.ensure st.clients op.client) op.client) chargedback
        ({ clients := alistSet (ClientDb.ensure st.clients op.client) op.client pr.1,
           transactions := txs }, pr.2)

/-- main.rs process_csv main loop: process rows in order, an error on one row
    only skips that row (the already-applied partial mutation of the failed
    row stays, exactly as in the source). -/
def process_from (st : SysState) (ops : List Operation) : SysState :=
  ops.foldl (fun s op => (process_operation s op).1) st

def process_all (ops : List Operation) : SysState :=
  process_from SysState.initial ops

/-- The balances the output row for a client would show (before rounding):
    the stored account, or the fresh account for a client never seen. -/
def SysState.clientView (st : SysState) (c : ClientId) : AccountState :=
  ClientDb.getOr st.clients c

/-- The clients of the final output, in first-seen order. -/
def SysState.outputClients (st : SysState) : List ClientId :=
  st.clients.map Prod.fst

/-- Concrete input rows: the first deposit fills client 1 up to the decimal
    bound and gets disputed (available 0, held at the bound); the third row
    records a one-unit deposit in the ledger but fails at the balance step
    (total would overflow); disputing that recorded deposit then decrements
    available before the held addition overflows. -/
def c1Rows : List Operation :=
  [ { op_type := .deposit, client := 1, tx := 1, amount := some DECIMAL_MAX },
    { op_type := .dispute, client := 1, tx := 1, amount := none },
    { op_type := .deposit, client := 1, tx := 2, amount := some 1 },
    { op_type := .dispute, client := 1, tx := 2, amount := none } ]

/-- A later row that succeeds (deposit for a fresh client). -/
def c1FinalRow : Operation :=
  { op_type := .deposit, client := 2, tx := 3, amount := some 1 }

/-- Concrete state with client 1 at the decimal bound. -/
def c2State : SysState :=
  process_all
    [ { op_type := .deposit, client := 1, tx := 1, amount := some DECIMAL_MAX } ]

/-- A deposit row whose ledger insertion succeeds but whose balance
    application overflows. -/
def c2Row : Operation :=
  { op_type := .deposit, client := 1, tx := 2, amount := some DECIMAL_MAX }

/-- Concrete state where available is negative: deposit 5, withdraw all of
    it, then dispute the deposit (the open-question scenario of the spec). -/
def c5State : SysState :=
  process_all
    [ { op_type := .deposit, client := 1, tx := 1, amount := some 5 },
      { op_type := .withdrawal, client := 1, tx := 2, amount := some 5 },
      { op_type := .dispute, client := 1, tx := 1, amount := none } ]

/-- A withdrawal row whose amount exceeds the (negative) available funds but
    is not positive. -/
def c5Row : Operation :=
  { op_type := .withdrawal, client := 1, tx := 3, amount := some (-1) }

/-- Concrete state holding one recorded deposit under transaction id 1. -/
def c7State : SysState :=
  process_all
    [ { op_type := .deposit, client := 1, tx := 1, amount := some 5 } ]

/-- A withdrawal row reusing transaction id 1, from a client without funds. -/
def c7Row : Operation :=
  { op_type := .withdrawal, client := 2, tx := 1, amount := some 3 }

/-- Concrete state where client 1 deposited 5 under transaction id 100. -/
def c9State : SysState :=
  process_all
    [ { op_type := .deposit, client := 1, tx := 100, amount := some 5 } ]

/-- A dispute row naming client 2 but referencing the deposit of client 1. -/
def c9Row : Operation :=
  { op_type := .dispute, client := 2, tx := 100, amount := none }

theorem alistLookup_append {β : Type} (xs ys : List (Nat × β)) (k : Nat) :
    alistLookup (xs ++ ys) k =
      match alistLookup xs k with
      | some v => some v
      | none => alistLookup ys k := by
  induction xs with
  | nil => simp [alistLookup]
  | cons p rest ih =>
    obtain ⟨a, b⟩ := p
    simp only [List.cons_append, alistLookup]
    split
    · rfl
    · exact ih

theorem alistLookup_set {β : Type} (db : List (Nat × β)) (k c : Nat) (v : β) :
    alistLookup (alistSet db k v) c =
      if c = k then (alistLookup db k).map (fun _ => v)
      else alistLookup db c := by
  induction db with
  | nil => simp [alistLookup, alistSet]
  | cons p rest ih =>
    obtain ⟨a, b⟩ := p
    by_cases hka : k = a
    · subst hka
      by_cases hck : c = k
      · subst hck; simp [alistSet, alistLookup]
      · simp [alistSet, alistLookup, hck]
    · by_cases hca : c = a
      · subst hca
        have hck : ¬ c = k := fun h => hka h.symm
        simp [alistSet, alistLookup, hck, hka]
      · by_cases hck : c = k
        · subst hck
          have hak : ¬ c = a := hca
          simp [alistSet, alistLookup, hka, hak, ih]
        · simp [alistSet, alistLookup, hka, hca, hck, ih]

theorem alistLookup_ensure (db : Clients) (k c : ClientId) :
    alistLookup (ClientDb.ensure db k) c =
      if c = k then some (ClientDb.getOr db k) else alistLookup db c := by
  unfold ClientDb.ensure ClientDb.getOr
  cases h : alistLookup db k with
  | some v =>
    by_cases hck : c = k
    · subst hck; simp [h]
    · simp [hck]
  | none =>
    rw [alistLookup_append]
    by_cases hck : c = k
    · subst hck; simp [h, alistLookup]
    · cases hc : alistLookup db c <;> simp [hc, alistLookup, hck]

theorem getOr_ensure (db : Clients) (k c : ClientId) :
    ClientDb.getOr (ClientDb.ensure db k) c = ClientDb.getOr db c := by
  by_cases hck : c = k
  · subst hck
    show (alistLookup (ClientDb.ensure db c) c).getD _ = _
    rw [alistLookup_ensure]
    simp [ClientDb.getOr]
  · show (alistLookup (ClientDb.ensure db k) c).getD _ = _
    rw [alistLookup_ensure, if_neg hck]
    rfl

theorem ensure_isSome_self (db : Clients) (k : ClientId) :
    (alistLookup (ClientDb.ensure db k) k).isSome := by
  rw [alistLookup_ensure]
  simp

theorem getOr_set_self (db : Clients) (k : ClientId) (v : AccountState)
    (h : (alistLookup db k).isSome) :
    ClientDb.getOr (alistSet db k v) k = v := by
  unfold ClientDb.getOr
  rw [alistLookup_set, if_pos rfl]
  cases hk : alistLookup db k with
  | some w => rfl
  | none => rw [hk] at h; cases h

theorem getOr_set_other (db : Clients) (k c : ClientId) (v : AccountState)
    (h : c ≠ k) :
    ClientDb.getOr (alistSet db k v) c = ClientDb.getOr db c := by
  unfold ClientDb.getOr
  rw [alistLookup_set, if_neg h]

theorem checkedAdd_eq_some {a b r : Int} (h : checkedAdd a b = some r) :
    r = a + b := by
  unfold checkedAdd at h
  split at h
  · exact (Option.some.inj h).symm
  · cases h

theorem checkedSub_eq_some {a b r : Int} (h : checkedSub a b = some r) :
    r = a - b := by
  unfold checkedSub at h
  split at h
  · exact (Option.some.inj h).symm
  · cases h

/-- Every error produced by an AccountState mutator is arithmetic. -/
theorem mutator_error_arithmetic (s : AccountState) (a : Int) (e : ProcError) :
    ((AccountState.deposit s a).2 = some e ∨
     (AccountState.withdraw s a).2 = some e ∨
     (AccountState.dispute_deposit s a).2 = some e ∨
     (AccountState.resolve_dispute s a).2 = some e ∨
     (AccountState.chargeback s a).2 = some e) →
    e = ProcError.arithmeticOverflow ∨ e = ProcError.arithmeticUnderflow := by
  intro h
  rcases h with h | h | h | h | h <;>
    [ unfold AccountState.deposit at h;
      unfold AccountState.withdraw at h;
      unfold AccountState.dispute_deposit at h;
      unfold AccountState.resolve_dispute at h;
      unfold AccountState.chargeback at h ] <;>
    (repeat' split at h) <;> simp_all

/-- No mutator ever clears the locked flag; only chargeback sets it. -/
theorem mutator_locked (s : AccountState) (a : Int) :
    (AccountState.deposit s a).1.locked = s.locked ∧
    (AccountState.withdraw s a).1.locked = s.locked ∧
    (AccountState.dispute_deposit s a).1.locked = s.locked ∧
    (AccountState.resolve_dispute s a).1.locked = s.locked ∧
    ((AccountState.chargeback s a).1.locked = s.locked ∨
     (AccountState.chargeback s a).1.locked = true) := by
  unfold AccountState.deposit AccountState.withdraw AccountState.dispute_deposit
    AccountState.resolve_dispute AccountState.chargeback
  refine ⟨?_, ?_, ?_, ?_, ?_⟩ <;> (repeat' split) <;> simp

/-- Structure of the state after one operation: either only the lazy account
    creation happened and the ledger is untouched, or additionally the account
    of the client named by the row was written back after one mutator ran (and no mutator
    clears the locked flag). -/
theorem process_operation_shape (st : SysState) (op : Operation) :
    ((process_operation st op).1.clients = ClientDb.ensure st.clients op.client ∧
     (process_operation st op).1.transactions = st.transactions) ∨
    (∃ v, (process_operation st op).1.clients =
        alistSet (ClientDb.ensure st.clients op.client) op.client v ∧
      (v.locked = (st.clientView op.client).locked ∨ v.locked = true)) := by
  rcases op with ⟨ty, cl, tx, am⟩
  have hview : ClientDb.getOr (ClientDb.ensure st.clients cl) cl
      = SysState.clientView st cl := getOr_ensure st.clients cl cl
  cases ty
  case deposit =>
    cases am
    case none => exact Or.inl ⟨rfl, rfl⟩
    case some a =>
      cases hdb : TransactionDb.deposit st.transactions tx a with
      | error e =>
        refine Or.inl ⟨?_, ?_⟩ <;> simp [process_operation, hdb]
      | ok p =>
        obtain ⟨txs, rec⟩ := p
        refine Or.inr ⟨(AccountState.deposit
            (ClientDb.getOr (ClientDb.ensure st.clients cl) cl) rec).1, ?_, ?_⟩
        · simp [process_operation, hdb]
        · rw [hview]
          exact Or.inl (mutator_locked _ _).1
  case withdrawal =>
    cases am
    case none => exact Or.inl ⟨rfl, rfl⟩
    case some a =>
      cases hau : AccountState.authorize_withdrawal
          (ClientDb.getOr (ClientDb.ensure st.clients cl) cl) tx a with
      | error e =>
        refine Or.inl ⟨?_, ?_⟩ <;> simp [process_operation, hau]
      | ok w =>
        cases hdb : TransactionDb.withdraw st.transactions w with
        | error e =>
          refine Or.inl ⟨?_, ?_⟩ <;> simp [process_operation, hau, hdb]
        | ok p =>
          obtain ⟨txs, rec⟩ := p
          refine Or.inr ⟨(AccountState.withdraw
              (ClientDb.getOr (ClientDb.ensure st.clients cl) cl) rec).1, ?_, ?_⟩
          · simp [process_operation, hau, hdb]
          · rw [hview]
            exact Or.inl (mutator_locked _ _).2.1
  case dispute =>
    cases am
    case some a => exact Or.inl ⟨rfl, rfl⟩
    case none =>
      cases hdb : TransactionDb.dispute st.transactions tx with
      | error e =>
        refine Or.inl ⟨?_, ?_⟩ <;> simp [process_operation, hdb]
      | ok p =>
        obtain ⟨txs, rec⟩ := p
        refine Or.inr ⟨(AccountState.dispute_deposit
            (ClientDb.getOr (ClientDb.ensure st.clients cl) cl) rec).1, ?_, ?_⟩
        · simp [process_operation, hdb]
        · rw [hview]
          exact Or.inl (mutator_locked _ _).2.2.1
  case resolve =>
    cases am
    case some a => exact Or.inl ⟨rfl, rfl⟩
    case none =>
      cases hdb : TransactionDb.resolve st.transactions tx with
      | error e =>
        refine Or.inl ⟨?_, ?_⟩ <;> simp [process_operation, hdb]
      | ok p =>
        obtain ⟨txs, rec⟩ := p
        refine Or.inr ⟨(AccountState.resolve_dispute
            (ClientDb.getOr (ClientDb.ensure st.clients cl) cl) rec).1, ?_, ?_⟩
        · simp [process_operation, hdb]
        · rw [hview]
          exact Or.inl (mutator_locked _ _).2.2.2.1
  case chargeback =>
    cases am
    case some a => exact Or.inl ⟨rfl, rfl⟩
    case none =>
      cases hdb : TransactionDb.chargeback st.transactions tx with
      | error e =>
        refine Or.inl ⟨?_, ?_⟩ <;> simp [process_operation, hdb]
      | ok p =>
        obtain ⟨txs, rec⟩ := p
        refine Or.inr ⟨(AccountState.chargeback
            (ClientDb.getOr (ClientDb.ensure st.clients cl) cl) rec).1, ?_, ?_⟩
        · simp [process_operation, hdb]
        · rw [hview]
          exact (mutator_locked _ _).2.2.2.2

/-- An operation only writes to the account of the client named by its own row. -/
theorem clientView_process_other (st : SysState) (op : Operation) (c : ClientId)
    (h : c ≠ op.client) :
    (process_operation st op).1.clientView c = st.clientView c := by
  rcases process_operation_shape st op with ⟨hc, _⟩ | ⟨v, hc, _⟩
  · simp only [SysState.clientView, hc]
    exact getOr_ensure _ _ _
  · simp only [SysState.clientView, hc]
    rw [getOr_set_other _ _ _ _ h]
    exact getOr_ensure _ _ _

/-- Once locked, an account stays locked across any further operation. -/
theorem locked_persists (st : SysState) (op : Operation) (c : ClientId)
    (h : (st.clientView c).locked = true) :
    ((process_operation st op).1.clientView c).locked = true := by
  by_cases hc : c = op.client
  · subst hc
    rcases process_operation_shape st op with ⟨hcl, _⟩ | ⟨v, hcl, hv⟩
    · simp only [SysState.clientView, hcl]
      rw [getOr_ensure]
      exact h
    · simp only [SysState.clientView, hcl]
      rw [getOr_set_self _ _ _ (ensure_isSome_self _ _)]
      rcases hv with hv | hv
      · rw [hv]; exact h
      · exact hv
  · rw [clientView_process_other st op c hc]
    exact h

/-- A client present in the book stays present after any operation. -/
theorem lookup_isSome_after (st : SysState) (op : Operation) (c : ClientId)
    (h : (alistLookup st.clients c).isSome) :
    (alistLookup (process_operation st op).1.clients c).isSome := by
  rcases process_operation_shape st op with ⟨hc, _⟩ | ⟨v, hc, _⟩ <;> rw [hc]
  · rw [alistLookup_ensure]
    by_cases hck : c = op.client <;> simp [hck, h]
  · rw [alistLookup_set]
    by_cases hck : c = op.client <;> simp [alistLookup_ensure, hck, h]

/-- After any row is processed, its client is present in the book. -/
theorem row_client_present (st : SysState) (op : Operation) :
    (alistLookup (process_operation st op).1.clients op.client).isSome := by
  rcases process_operation_shape st op with ⟨hc, _⟩ | ⟨v, hc, _⟩ <;> rw [hc]
  · exact ensure_isSome_self _ _
  · rw [alistLookup_set, if_pos rfl]
    have hs := ensure_isSome_self st.clients op.client
    cases hk : alistLookup (ClientDb.ensure st.clients op.client) op.client
    · rw [hk] at hs; cases hs
    · simp

theorem lookup_isSome_foldl (ops : List Operation) :
    ∀ st c, (alistLookup st.clients c).isSome →
      (alistLookup (process_from st ops).clients c).isSome := by
  induction ops with
  | nil => intro st c h; exact h
  | cons o rest ih =>
    intro st c h
    exact ih _ _ (lookup_isSome_after st o c h)

theorem mem_keys_of_isSome {β : Type} (db : List (Nat × β)) (c : Nat)
    (h : (alistLookup db c).isSome) : c ∈ db.map Prod.fst := by
  induction db with
  | nil => simp [alistLookup] at h
  | cons p rest ih =>
    obtain ⟨a, b⟩ := p
    by_cases hca : c = a
    · subst hca; simp
    · simp only [alistLookup, if_neg hca] at h
      simp [ih h]

theorem row_client_present_from (ops : List Operation) :
    ∀ st op, op ∈ ops →
      (alistLookup (process_from st ops).clients op.client).isSome := by
  induction ops with
  | nil => intro st op h; cases h
  | cons o rest ih =>
    intro st op h
    rcases List.mem_cons.mp h with h | h
    · subst h
      exact lookup_isSome_foldl rest _ _ (row_client_present st op)
    · exact ih _ _ h

/-- The model replays the test_chargeback unit test of main.rs. -/
theorem model_matches_test_chargeback :
    (process_all
      [ { op_type := .deposit, client := 123, tx := 999, amount := some 5 },
        { op_type := .deposit, client := 123, tx := 256, amount := some 2 },
        { op_type := .dispute, client := 123, tx := 256, amount := none },
        { op_type := .chargeback, client := 123, tx := 256, amount := none }
      ]).clientView 123 =
    { available := 5, held := 0, total := 5, locked := true } := by decide

/-- The model replays the test_resolve unit test of main.rs. -/
theorem model_matches_test_resolve :
    (process_all
      [ { op_type := .deposit, client := 123, tx := 999, amount := some 5 },
        { op_type := .deposit, client := 123, tx := 256, amount := some 2 },
        { op_type := .dispute, client := 123, tx := 256, amount := none },
        { op_type := .resolve, client := 123, tx := 256, amount := none }
      ]).clientView 123 =
    { available := 7, held := 0, total := 7, locked := false } := by decide

/-- The model replays the balances of the test_example unit test of main.rs
    (amounts scaled to integers). -/
theorem model_matches_test_example :
    (process_all
      [ { op_type := .deposit, client := 1, tx := 1, amount := some 10 },
        { op_type := .deposit, client := 2, tx := 2, amount := some 20 },
        { op_type := .deposit, client := 1, tx := 3, amount := some 20 },
        { op_type := .withdrawal, client := 1, tx := 4, amount := some 15 },
        { op_type := .withdrawal, client := 2, tx := 5, amount := some 30 }
      ]).clientView 1 =
    { available := 15, held := 0, total := 15, locked := false } := by decide

/-- Claim C1: refuted by the code (code bug).  After the four rows of c1Rows,
    the failed dispute of transaction 2 has decremented available of client 1
    without a matching held increment; c1FinalRow is then a successfully
    applied deposit (for client 2), after which client 1 violates
    total = available + held. -/
theorem c1_invariant_violated_after_successful_op :
    (process_operation (process_all c1Rows) c1FinalRow).2 = none ∧
    ((process_operation (process_all c1Rows) c1FinalRow).1.clientView 1).total ≠
      ((process_operation (process_all c1Rows) c1FinalRow).1.clientView 1).available +
        ((process_operation (process_all c1Rows) c1FinalRow).1.clientView 1).held := by
  decide

/-- Claim C2 counterexample: the deposit of c2Row fails (balance overflow),
    yet the transaction ledger has changed: the failed row left a Deposited
    record under transaction id 2. -/
theorem c2_counterexample_failed_deposit_mutates_ledger :
    (process_operation c2State c2Row).2 = some ProcError.arithmeticOverflow ∧
    (process_operation c2State c2Row).1.transactions ≠ c2State.transactions := by
  decide

/-- Claim C3: refuted by the code (code bug).  dispute_deposit on the account
    (available 0, held at the decimal bound) with amount 1 fails with an
    overflow, yet available has been mutated to -1. -/
theorem c3_dispute_deposit_partial_mutation :
    AccountState.dispute_deposit
        { available := 0, held := DECIMAL_MAX, total := DECIMAL_MAX,
          locked := false } 1 =
      ({ available := -1, held := DECIMAL_MAX, total := DECIMAL_MAX,
         locked := false },
       some ProcError.arithmeticOverflow) := by
  decide

/-- Claim C4: for every ledger and transaction id, dispute succeeds exactly
    when the stored status is Deposited (moving it to Disputed and returning
    the stored amount), resolve and chargeback succeed exactly when it is
    Disputed (moving to Resolved and Chargedback respectively), an absent id
    yields UnknownTransaction for all three, and every other pair yields
    InvalidStateTransition - never a silent no-op. -/
theorem c4_ledger_state_machine (txs : Ledger) (id : TransactionId) :
    (alistLookup txs id = none →
      TransactionDb.dispute txs id = .error .unknownTransaction ∧
      TransactionDb.resolve txs id = .error .unknownTransaction ∧
      TransactionDb.chargeback txs id = .error .unknownTransaction) ∧
    (∀ s, alistLookup txs id = some s →
      (TransactionDb.dispute txs id =
        if s.status = .deposited then
          .ok (alistSet txs id { s with status := .disputed }, s.amount)
        else .error .invalidStateTransition) ∧
      (TransactionDb.resolve txs id =
        if s.status = .disputed then
          .ok (alistSet txs id { s with status := .resolved }, s.amount)
        else .error .invalidStateTransition) ∧
      (TransactionDb.chargeback txs id =
        if s.status = .disputed then
          .ok (alistSet txs id { s with status := .chargedback }, s.amount)
        else .error .invalidStateTransition)) := by
  constructor
  · intro h
    refine ⟨?_, ?_, ?_⟩ <;>
      simp [TransactionDb.dispute, TransactionDb.resolve,
        TransactionDb.chargeback, h]
  · intro s h
    refine ⟨?_, ?_, ?_⟩ <;>
      simp [TransactionDb.dispute, TransactionDb.resolve,
        TransactionDb.chargeback, h]

/-- Witness for c4_ledger_state_machine at a one-entry ledger with a
    Deposited record. -/
theorem c4_witness :
    TransactionDb.dispute [(1, { amount := 5, status := .deposited })] 1 =
      .ok ([(1, { amount := 5, status := .disputed })], 5) := by
  have h := ((c4_ledger_state_machine
      [(1, { amount := 5, status := .deposited })] 1).2
      { amount := 5, status := .deposited } (by decide)).1
  simpa [alistSet] using h

/-- Claim C9: confirmed.  The dispute row c9Row names client 2 while the
    referenced transaction 100 was deposited by client 1; the dispute
    succeeds and moves 5 from available to held on client 2, leaving client 1
    untouched (the record stores no client id to check against). -/
theorem c9_dispute_moves_funds_of_rows_client :
    (process_operation c9State c9Row).2 = none ∧
    (process_operation c9State c9Row).1.clientView 2 =
      { available := -5, held := 5, total := 0, locked := false } ∧
    (process_operation c9State c9Row).1.clientView 1 =
      { available := 5, held := 0, total := 5, locked := false } := by
  decide


/-- Claim C2, amended: if processing an operation returns an error that is
    not an arithmetic overflow/underflow, then the transaction ledger and
    the balances of every client (available, held, total, locked; an absent client
    reading as the fresh account) are exactly as before.  The original
    unconditional claim is refuted by
    c2_counterexample_failed_deposit_mutates_ledger: an arithmetic failure in
    the final balance step can leave the preceding ledger mutation (and, for
    dispute, a partial balance mutation) in place. -/
theorem c2_failed_nonarithmetic_op_changes_nothing (st : SysState)
    (op : Operation) (e : ProcError)
    (h : (process_operation st op).2 = some e)
    (ho : e ≠ ProcError.arithmeticOverflow)
    (hu : e ≠ ProcError.arithmeticUnderflow) :
    (process_operation st op).1.transactions = st.transactions ∧
    ∀ c, (process_operation st op).1.clientView c = st.clientView c := by
  rcases op with ⟨ty, cl, tx, am⟩
  cases ty
  case deposit =>
    cases am
    case none => exact ⟨rfl, fun c => getOr_ensure st.clients cl c⟩
    case some a =>
      cases hdb : TransactionDb.deposit st.transactions tx a with
      | error e2 =>
        have heq : process_operation st ⟨.deposit, cl, tx, some a⟩ =
            ({ st with clients := ClientDb.ensure st.clients cl }, some e2) := by
          simp [process_operation, hdb]
        rw [heq]
        exact ⟨rfl, fun c => getOr_ensure st.clients cl c⟩
      | ok p =>
        obtain ⟨txs, rec⟩ := p
        have heq : process_operation st ⟨.deposit, cl, tx, some a⟩ =
            ({ clients := alistSet (ClientDb.ensure st.clients cl) cl
                 (AccountState.deposit
                   (ClientDb.getOr (ClientDb.ensure st.clients cl) cl) rec).1,
               transactions := txs },
             (AccountState.deposit
               (ClientDb.getOr (ClientDb.ensure st.clients cl) cl) rec).2) := by
          simp [process_operation, hdb]
        rw [heq] at h
        rcases mutator_error_arithmetic _ rec e (Or.inl h) with he | he
        · exact absurd he ho
        · exact absurd he hu
  case withdrawal =>
    cases am
    case none => exact ⟨rfl, fun c => getOr_ensure st.clients cl c⟩
    case some a =>
      cases hau : AccountState.authorize_withdrawal
          (ClientDb.getOr (ClientDb.ensure st.clients cl) cl) tx a with
      | error e2 =>
        have heq : process_operation st ⟨.withdrawal, cl, tx, some a⟩ =
            ({ st with clients := ClientDb.ensure st.clients cl }, some e2) := by
          simp [process_operation, hau]
        rw [heq]
        exact ⟨rfl, fun c => getOr_ensure st.clients cl c⟩
      | ok w =>
        cases hdb : TransactionDb.withdraw st.transactions w with
        | error e2 =>
          have heq : process_operation st ⟨.withdrawal, cl, tx, some a⟩ =
              ({ st with clients := ClientDb.ensure st.clients cl }, some e2) := by
            simp [process_operation, hau, hdb]
          rw [heq]
          exact ⟨rfl, fun c => getOr_ensure st.clients cl c⟩
        | ok p =>
          obtain ⟨txs, rec⟩ := p
          have heq : process_operation st ⟨.withdrawal, cl, tx, some a⟩ =
              ({ clients := alistSet (ClientDb.ensure st.clients cl) cl
                   (AccountState.withdraw
                     (ClientDb.getOr (ClientDb.ensure st.clients cl) cl) rec).1,
                 transactions := txs },
               (AccountState.withdraw
                 (ClientDb.getOr (ClientDb.ensure st.clients cl) cl) rec).2) := by
            simp [process_operation, hau, hdb]
          rw [heq] at h
          rcases mutator_error_arithmetic _ rec e (Or.inr (Or.inl h)) with he | he
          · exact absurd he ho
          · exact absurd he hu
  case dispute =>
    cases am
    case some a => exact ⟨rfl, fun c => getOr_ensure st.clients cl c⟩
    case none =>
      cases hdb : TransactionDb.dispute st.transactions tx with
      | error e2 =>
        have heq : process_operation st ⟨.dispute, cl, tx, none⟩ =
            ({ st with clients := ClientDb.ensure st.clients cl }, some e2) := by
          simp [process_operation, hdb]
        rw [heq]
        exact ⟨rfl, fun c => getOr_ensure st.clients cl c⟩
      | ok p =>
        obtain ⟨txs, rec⟩ := p
        have heq : process_operation st ⟨.dispute, cl, tx, none⟩ =
            ({ clients := alistSet (ClientDb.ensure st.clients cl) cl
                 (AccountState.dispute_deposit
                   (ClientDb.getOr (ClientDb.ensure st.clients cl) cl) rec).1,
               transactions := txs },
             (AccountState.dispute_deposit
               (ClientDb.getOr (ClientDb.ensure st.clients cl) cl) rec).2) := by
          simp [process_operation, hdb]
        rw [heq] at h
        rcases mutator_error_arithmetic _ rec e
            (Or.inr (Or.inr (Or.inl h))) with he | he
        · exact absurd he ho
        · exact absurd he hu
  case resolve =>
    cases am
    case some a => exact ⟨rfl, fun c => getOr_ensure st.clients cl c⟩
    case none =>
      cases hdb : TransactionDb.resolve st.transactions tx with
      | error e2 =>
        have heq : process_operation st ⟨.resolve, cl, tx, none⟩ =
            ({ st with clients := ClientDb.ensure st.clients cl }, some e2) := by
          simp [process_operation, hdb]
        rw [heq]
        exact ⟨rfl, fun c => getOr_ensure st.clients cl c⟩
      | ok p =>
        obtain ⟨txs, rec⟩ := p
        have heq : process_operation st ⟨.resolve, cl, tx, none⟩ =
            ({ clients := alistSet (ClientDb.ensure st.clients cl) cl
                 (AccountState.resolve_dispute
                   (ClientDb.getOr (ClientDb.ensure st.clients cl) cl) rec).1,
               transactions := txs },
             (AccountState.resolve_dispute
               (ClientDb.getOr (ClientDb.ensure st.clients cl) cl) rec).2) := by
          simp [process_operation, hdb]
        rw [heq] at h
        rcases mutator_error_arithmetic _ rec e
            (Or.inr (Or.inr (Or.inr (Or.inl h)))) with he | he
        · exact absurd he ho
        · exact absurd he hu
  case chargeback =>
    cases am
    case some a => exact ⟨rfl, fun c => getOr_ensure st.clients cl c⟩
    case none =>
      cases hdb : TransactionDb.chargeback st.transactions tx with
      | error e2 =>
        have heq : process_operation st ⟨.chargeback, cl, tx, none⟩ =
            ({ st with clients := ClientDb.ensure st.clients cl }, some e2) := by
          simp [process_operation, hdb]
        rw [heq]
        exact ⟨rfl, fun c => getOr_ensure st.clients cl c⟩
      | ok p =>
        obtain ⟨txs, rec⟩ := p
        have heq : process_operation st ⟨.chargeback, cl, tx, none⟩ =
            ({ clients := alistSet (ClientDb.ensure st.clients cl) cl
                 (AccountState.chargeback
                   (ClientDb.getOr (ClientDb.ensure st.clients cl) cl) rec).1,
               transactions := txs },
             (AccountState.chargeback
               (ClientDb.getOr (ClientDb.ensure st.clients cl) cl) rec).2) := by
          simp [process_operation, hdb]
        rw [heq] at h
        rcases mutator_error_arithmetic _ rec e
            (Or.inr (Or.inr (Or.inr (Or.inr h)))) with he | he
        · exact absurd he ho
        · exact absurd he hu

/-- Witness for c2_failed_nonarithmetic_op_changes_nothing: a dispute of an
    unknown transaction on the empty state. -/
theorem c2_witness :
    (process_operation SysState.initial
        { op_type := .dispute, client := 1, tx := 5, amount := none }
      ).1.transactions = SysState.initial.transactions :=
  (c2_failed_nonarithmetic_op_changes_nothing SysState.initial
    { op_type := .dispute, client := 1, tx := 5, amount := none }
    ProcError.unknownTransaction (by decide) (by decide) (by decide)).1

/-- Claim C5, amended: for every client state and every withdrawal with
    positive amount greater than the available funds of the client named by the row, the
    withdrawal fails with InsufficientFunds and mutates nothing: the ledger
    is unchanged (so no record under that transaction id is inserted) and
    the balances of every client are unchanged.  (A withdrawal whose amount is not
    positive fails the earlier InvalidAmount check instead, see
    c5_counterexample_nonpositive_overdraw.) -/
theorem c5_withdrawal_insufficient_funds (st : SysState) (op : Operation)
    (a : Int) (hty : op.op_type = .withdrawal) (ha : op.amount = some a)
    (hpos : 0 < a) (hgt : (st.clientView op.client).available < a) :
    (process_operation st op).2 = some ProcError.insufficientFunds ∧
    (process_operation st op).1.transactions = st.transactions ∧
    ∀ c, (process_operation st op).1.clientView c = st.clientView c := by
  have hau : AccountState.authorize_withdrawal
      (ClientDb.getOr (ClientDb.ensure st.clients op.client) op.client)
      op.tx a = .error .insufficientFunds := by
    rw [getOr_ensure]
    unfold AccountState.authorize_withdrawal
    have hgt2 : ¬ (ClientDb.getOr st.clients op.client).available ≥ a :=
      not_le.mpr hgt
    rw [if_pos hpos, if_neg hgt2]
  have heq : process_operation st op =
      ({ st with clients := ClientDb.ensure st.clients op.client },
       some ProcError.insufficientFunds) := by
    simp [process_operation, hty, ha, hau]
  rw [heq]
  exact ⟨rfl, rfl, fun c => getOr_ensure st.clients op.client c⟩

/-- Claim C5 counterexample: in c5State client 1 has available -5 (after
    deposit 5, withdrawal 5, dispute of the deposit); the withdrawal c5Row of
    amount -1 exceeds the available funds, yet it fails with InvalidAmount,
    not InsufficientFunds. -/
theorem c5_counterexample_nonpositive_overdraw :
    (c5State.clientView 1).available < -1 ∧
    c5Row.op_type = .withdrawal ∧ c5Row.amount = some (-1) ∧
    (process_operation c5State c5Row).2 = some ProcError.invalidAmount ∧
    (process_operation c5State c5Row).2 ≠ some ProcError.insufficientFunds := by
  decide

/-- Witness for c5_withdrawal_insufficient_funds: withdrawing 3 from a fresh
    client on the empty state. -/
theorem c5_witness :
    (process_operation SysState.initial
        { op_type := .withdrawal, client := 1, tx := 1, amount := some 3 }).2 =
      some ProcError.insufficientFunds :=
  (c5_withdrawal_insufficient_funds SysState.initial
    { op_type := .withdrawal, client := 1, tx := 1, amount := some 3 }
    3 rfl rfl (by decide) (by decide)).1

/-- Claim C7, amended: when a transaction id already exists in the ledger, a
    deposit with positive amount reusing it fails with DuplicateTransaction,
    and a withdrawal reusing it that passes authorization (positive amount
    not exceeding the available funds of the client named by the row) fails with
    DuplicateTransaction; in every case a deposit or withdrawal reusing an
    existing id fails with some error and mutates nothing: the ledger
    (including the existing record) and all balances are unchanged.  (A
    reusing deposit/withdrawal that fails an earlier amount or funds check
    reports that earlier error instead, see
    c7_counterexample_reuse_not_duplicate_error.) -/
theorem c7_duplicate_transaction_rejected (st : SysState) (op : Operation)
    (a : Int) (s : TransactionState)
    (ha : op.amount = some a)
    (hex : alistLookup st.transactions op.tx = some s) :
    (op.op_type = .deposit → 0 < a →
      (process_operation st op).2 = some ProcError.duplicateTransaction) ∧
    (op.op_type = .withdrawal → 0 < a →
        a ≤ (st.clientView op.client).available →
      (process_operation st op).2 = some ProcError.duplicateTransaction) ∧
    ((op.op_type = .deposit ∨ op.op_type = .withdrawal) →
      (process_operation st op).2.isSome ∧
      (process_operation st op).1.transactions = st.transactions ∧
      ∀ c, (process_operation st op).1.clientView c = st.clientView c) := by
  refine ⟨?_, ?_, ?_⟩
  · intro hty hpos
    have hdb : TransactionDb.deposit st.transactions op.tx a =
        .error .duplicateTransaction := by
      simp [TransactionDb.deposit, hpos, hex]
    simp [process_operation, hty, ha, hdb]
  · intro hty hpos hfunds
    have hau : AccountState.authorize_withdrawal
        (ClientDb.getOr (ClientDb.ensure st.clients op.client) op.client)
        op.tx a =
        .ok { transaction_id := op.tx, amount := a } := by
      rw [getOr_ensure]
      unfold AccountState.authorize_withdrawal
      have hf2 : (ClientDb.getOr st.clients op.client).available ≥ a := hfunds
      rw [if_pos hpos, if_pos hf2]
    have hdb : TransactionDb.withdraw st.transactions
        { transaction_id := op.tx, amount := a } =
        .error .duplicateTransaction := by
      unfold TransactionDb.withdraw
      simp [hex]
    simp [process_operation, hty, ha, hau, hdb]
  · intro hdw
    rcases hdw with hty | hty
    · by_cases hpos : a > 0
      · have hdb : TransactionDb.deposit st.transactions op.tx a =
            .error .duplicateTransaction := by
          simp [TransactionDb.deposit, hpos, hex]
        have heq : process_operation st op =
            ({ st with clients := ClientDb.ensure st.clients op.client },
             some ProcError.duplicateTransaction) := by
          simp [process_operation, hty, ha, hdb]
        rw [heq]
        exact ⟨rfl, rfl, fun c => getOr_ensure st.clients op.client c⟩
      · have hdb : TransactionDb.deposit st.transactions op.tx a =
            .error .invalidAmount := by
          simp [TransactionDb.deposit, hpos]
        have heq : process_operation st op =
            ({ st with clients := ClientDb.ensure st.clients op.client },
             some ProcError.invalidAmount) := by
          simp [process_operation, hty, ha, hdb]
        rw [heq]
        exact ⟨rfl, rfl, fun c => getOr_ensure st.clients op.client c⟩
    · cases hau : AccountState.authorize_withdrawal
          (ClientDb.getOr (ClientDb.ensure st.clients op.client) op.client)
          op.tx a with
      | error e2 =>
        have heq : process_operation st op =
            ({ st with clients := ClientDb.ensure st.clients op.client },
             some e2) := by
          simp [process_operation, hty, ha, hau]
        rw [heq]
        exact ⟨rfl, rfl, fun c => getOr_ensure st.clients op.client c⟩
      | ok w =>
        have hw : w.transaction_id = op.tx := by
          unfold AccountState.authorize_withdrawal at hau
          split at hau
          · split at hau
            · cases hau; rfl
            · cases hau
          · cases hau
        have hdb : TransactionDb.withdraw st.transactions w =
            .error .duplicateTransaction := by
          unfold TransactionDb.withdraw
          rw [hw]
          simp [hex]
        have heq : process_operation st op =
            ({ st with clients := ClientDb.ensure st.clients op.client },
             some ProcError.duplicateTransaction) := by
          simp [process_operation, hty, ha, hau, hdb]
        rw [heq]
        exact ⟨rfl, rfl, fun c => getOr_ensure st.clients op.client c⟩

/-- Claim C7 counterexample: transaction id 1 exists in c7State, and the
    withdrawal c7Row reuses it, but the failure is InsufficientFunds (the
    authorization runs before the ledger duplicate check), not
    DuplicateTransaction. -/
theorem c7_counterexample_reuse_not_duplicate_error :
    (alistLookup c7State.transactions 1).isSome ∧
    c7Row.tx = 1 ∧
    (process_operation c7State c7Row).2 = some ProcError.insufficientFunds ∧
    (process_operation c7State c7Row).2 ≠
      some ProcError.duplicateTransaction := by
  decide

/-- Witness for c7_duplicate_transaction_rejected: re-depositing under the
    already-used transaction id 1 of c7State. -/
theorem c7_witness :
    (process_operation c7State
        { op_type := .deposit, client := 1, tx := 1, amount := some 5 }).2 =
      some ProcError.duplicateTransaction :=
  (c7_duplicate_transaction_rejected c7State
    { op_type := .deposit, client := 1, tx := 1, amount := some 5 }
    5 { amount := 5, status := .deposited } rfl (by decide)).1 rfl (by decide)

/-- A successful chargeback mutation subtracts the amount from held and
    total and sets locked. -/
theorem chargeback_success (s : AccountState) (a : Int)
    (h : (AccountState.chargeback s a).2 = none) :
    AccountState.chargeback s a =
      ({ s with held := s.held - a, total := s.total - a, locked := true },
       none) := by
  unfold AccountState.chargeback at h ⊢
  cases h1 : checkedSub s.held a with
  | none => rw [h1] at h; cases h
  | some nh =>
    cases h2 : checkedSub s.total a with
    | none => rw [h1, h2] at h; cases h
    | some nt =>
      have e1 := checkedSub_eq_some h1
      have e2 := checkedSub_eq_some h2
      subst e1; subst e2
      simp [h1, h2]

/-- Claim C6: a successful chargeback of a disputed transaction of amount a
    removes a from held and total of the client named by the row, leaves available
    unchanged, and sets locked; locked never reverts under any subsequent
    operation; and a second chargeback of the same transaction id fails with
    InvalidStateTransition. -/
theorem c6_chargeback_effect_and_lock_permanence :
    (∀ (st : SysState) (op : Operation) (s : TransactionState),
      op.op_type = .chargeback → op.amount = none →
      alistLookup st.transactions op.tx = some s → s.status = .disputed →
      (process_operation st op).2 = none →
      ((process_operation st op).1.clientView op.client).held =
          (st.clientView op.client).held - s.amount ∧
      ((process_operation st op).1.clientView op.client).total =
          (st.clientView op.client).total - s.amount ∧
      ((process_operation st op).1.clientView op.client).available =
          (st.clientView op.client).available ∧
      ((process_operation st op).1.clientView op.client).locked = true ∧
      (process_operation (process_operation st op).1 op).2 =
          some ProcError.invalidStateTransition) ∧
    (∀ (st : SysState) (op : Operation) (c : ClientId),
      (st.clientView c).locked = true →
      ((process_operation st op).1.clientView c).locked = true) := by
  constructor
  · intro st op s hty ham htx hst hsucc
    have hdb : TransactionDb.chargeback st.transactions op.tx =
        .ok (alistSet st.transactions op.tx { s with status := .chargedback },
             s.amount) := by
      simp [TransactionDb.chargeback, htx, hst]
    have hb : ClientDb.getOr (ClientDb.ensure st.clients op.client) op.client
        = st.clientView op.client := getOr_ensure st.clients op.client op.client
    have heq : process_operation st op =
        ({ clients := alistSet (ClientDb.ensure st.clients op.client) op.client
             (AccountState.chargeback (st.clientView op.client) s.amount).1,
           transactions := alistSet st.transactions op.tx
             { s with status := .chargedback } },
         (AccountState.chargeback (st.clientView op.client) s.amount).2) := by
      simp [process_operation, hty, ham, hdb, hb]
    rw [heq] at hsucc
    have hcb := chargeback_success (st.clientView op.client) s.amount hsucc
    rw [heq]
    have hview : SysState.clientView
        { clients := alistSet (ClientDb.ensure st.clients op.client) op.client
            (AccountState.chargeback (st.clientView op.client) s.amount).1,
          transactions := alistSet st.transactions op.tx
            { s with status := .chargedback } } op.client =
        (AccountState.chargeback (st.clientView op.client) s.amount).1 :=
      getOr_set_self _ _ _ (ensure_isSome_self _ _)
    rw [hview, hcb]
    refine ⟨rfl, rfl, rfl, rfl, ?_⟩
    have hlk : alistLookup (alistSet st.transactions op.tx
        { s with status := .chargedback }) op.tx =
        some { s with status := .chargedback } := by
      rw [alistLookup_set, if_pos rfl, htx]
      rfl
    have hdb2 : TransactionDb.chargeback
        (alistSet st.transactions op.tx { s with status := .chargedback })
        op.tx = .error .invalidStateTransition := by
      simp [TransactionDb.chargeback, hlk]
    simp [process_operation, hty, ham, hdb2]
  · intro st op c h
    exact locked_persists st op c h

/-- Witness for c6_chargeback_effect_and_lock_permanence: deposit 5, dispute
    it, charge it back; the account of client 123 ends locked. -/
theorem c6_witness :
    ((process_operation (process_all
        [ { op_type := .deposit, client := 123, tx := 1, amount := some 5 },
          { op_type := .dispute, client := 123, tx := 1, amount := none } ])
        { op_type := .chargeback, client := 123, tx := 1, amount := none }
      ).1.clientView 123).locked = true :=
  (c6_chargeback_effect_and_lock_permanence.1 _ _
    { amount := 5, status := .disputed }
    rfl rfl (by decide) rfl (by decide)).2.2.2.1

/-- AccountState::deposit never reads the locked flag. -/
theorem deposit_ignores_locked (s : AccountState) (a : Int) :
    (AccountState.deposit { s with locked := true } a).2 =
      (AccountState.deposit { s with locked := false } a).2 ∧
    (AccountState.deposit { s with locked := true } a).1 =
      { (AccountState.deposit { s with locked := false } a).1 with
          locked := true } := by
  unfold AccountState.deposit
  cases h1 : checkedAdd s.available a <;>
    cases h2 : checkedAdd s.total a <;>
    simp [h1, h2]

/-- AccountState::withdraw never reads the locked flag. -/
theorem withdraw_ignores_locked (s : AccountState) (a : Int) :
    (AccountState.withdraw { s with locked := true } a).2 =
      (AccountState.withdraw { s with locked := false } a).2 ∧
    (AccountState.withdraw { s with locked := true } a).1 =
      { (AccountState.withdraw { s with locked := false } a).1 with
          locked := true } := by
  unfold AccountState.withdraw
  cases h1 : checkedSub s.available a <;>
    cases h2 : checkedSub s.total a <;>
    simp [h1, h2]

/-- Claim C8: being locked is never by itself a reason for failure.
    authorize_withdrawal, deposit and withdraw behave identically on a locked
    and an unlocked account with the same balances (the written-back account
    differing only in the locked flag), and processing a whole deposit or
    withdrawal row against a book containing the locked account yields the
    same error outcome as against the unlocked one. -/
theorem c8_locked_account_not_restricted (s : AccountState)
    (t : TransactionId) (a : Int) (txs : Ledger) (op : Operation) :
    (AccountState.authorize_withdrawal { s with locked := true } t a =
      AccountState.authorize_withdrawal { s with locked := false } t a) ∧
    ((AccountState.deposit { s with locked := true } a).2 =
      (AccountState.deposit { s with locked := false } a).2) ∧
    ((AccountState.deposit { s with locked := true } a).1 =
      { (AccountState.deposit { s with locked := false } a).1 with
          locked := true }) ∧
    ((AccountState.withdraw { s with locked := true } a).2 =
      (AccountState.withdraw { s with locked := false } a).2) ∧
    ((AccountState.withdraw { s with locked := true } a).1 =
      { (AccountState.withdraw { s with locked := false } a).1 with
          locked := true }) ∧
    (op.op_type = .deposit ∨ op.op_type = .withdrawal →
      (process_operation
          { clients := [(op.client, { s with locked := true })],
            transactions := txs } op).2 =
        (process_operation
          { clients := [(op.client, { s with locked := false })],
            transactions := txs } op).2) := by
  refine ⟨rfl, (deposit_ignores_locked s a).1, (deposit_ignores_locked s a).2,
    (withdraw_ignores_locked s a).1, (withdraw_ignores_locked s a).2, ?_⟩
  intro hdw
  have hens : ∀ b : Bool,
      ClientDb.ensure [(op.client, { s with locked := b })] op.client =
        [(op.client, { s with locked := b })] := by
    intro b
    simp [ClientDb.ensure, alistLookup]
  have hget : ∀ b : Bool,
      ClientDb.getOr [(op.client, { s with locked := b })] op.client =
        { s with locked := b } := by
    intro b
    simp [ClientDb.getOr, alistLookup]
  rcases hdw with hty | hty
  · cases ham : op.amount with
    | none => simp [process_operation, hty, ham]
    | some a2 =>
      cases hdb : TransactionDb.deposit txs op.tx a2 with
      | error e => simp [process_operation, hty, ham, hdb]
      | ok p =>
        obtain ⟨txs2, rec⟩ := p
        have h1 := (deposit_ignores_locked s rec).1
        simp [process_operation, hty, ham, hdb, hens, hget, h1]
  · cases ham : op.amount with
    | none => simp [process_operation, hty, ham]
    | some a2 =>
      have hauT : AccountState.authorize_withdrawal
          { s with locked := true } op.tx a2 =
          AccountState.authorize_withdrawal
            { s with locked := false } op.tx a2 := rfl
      cases hau : AccountState.authorize_withdrawal
          { s with locked := false } op.tx a2 with
      | error e =>
        simp [process_operation, hty, ham, hens, hget, hauT, hau]
      | ok w =>
        cases hdb : TransactionDb.withdraw txs w with
        | error e =>
          simp [process_operation, hty, ham, hens, hget, hauT, hau, hdb]
        | ok p =>
          obtain ⟨txs2, rec⟩ := p
          have h1 := (withdraw_ignores_locked s rec).1
          simp [process_operation, hty, ham, hens, hget, hauT, hau, hdb, h1]

/-- Witness for c8_locked_account_not_restricted: a valid withdrawal of 3
    against a locked account with available 5 has the same outcome as
    against the unlocked twin. -/
theorem c8_witness :
    (process_operation
        { clients :=
            [(1, { available := 5, held := 0, total := 5, locked := true })],
          transactions := [] }
        { op_type := .withdrawal, client := 1, tx := 1, amount := some 3 }).2 =
      (process_operation
        { clients :=
            [(1, { available := 5, held := 0, total := 5, locked := false })],
          transactions := [] }
        { op_type := .withdrawal, client := 1, tx := 1, amount := some 3 }).2 :=
  (c8_locked_account_not_restricted
    { available := 5, held := 0, total := 5, locked := false } 1 3 []
    { op_type := .withdrawal, client := 1, tx := 1, amount := some 3 }
    ).2.2.2.2.2 (Or.inr rfl)

/-- Claim C10: processing any row first creates an account for the
    client named by the row when none exists (all fields zero/false), so afterwards the
    client is always present; a client of any processed row appears in the
    final output; and a dispute of an unknown transaction or an
    insufficient-funds withdrawal fails while performing account creation as
    its only state change. -/
theorem c10_account_creation_and_output :
    (∀ (st : SysState) (op : Operation),
      (alistLookup (process_operation st op).1.clients op.client).isSome) ∧
    (∀ (db : Clients) (c : ClientId), alistLookup db c = none →
      alistLookup (ClientDb.ensure db c) c = some AccountState.initial) ∧
    (∀ (ops : List Operation) (op : Operation), op ∈ ops →
      op.client ∈ (process_all ops).outputClients) ∧
    (∀ (st : SysState) (op : Operation),
      op.op_type = .dispute → op.amount = none →
      alistLookup st.transactions op.tx = none →
      process_operation st op =
        ({ st with clients := ClientDb.ensure st.clients op.client },
         some ProcError.unknownTransaction)) ∧
    (∀ (st : SysState) (op : Operation) (a : Int),
      op.op_type = .withdrawal → op.amount = some a → 0 < a →
      (st.clientView op.client).available < a →
      process_operation st op =
        ({ st with clients := ClientDb.ensure st.clients op.client },
         some ProcError.insufficientFunds)) := by
  refine ⟨?_, ?_, ?_, ?_, ?_⟩
  · intro st op
    exact row_client_present st op
  · intro db c h
    rw [alistLookup_ensure, if_pos rfl]
    unfold ClientDb.getOr
    rw [h]
    rfl
  · intro ops op hmem
    exact mem_keys_of_isSome _ _
      (row_client_present_from ops SysState.initial op hmem)
  · intro st op hty ham htx
    have hdb : TransactionDb.dispute st.transactions op.tx =
        .error .unknownTransaction := by
      simp [TransactionDb.dispute, htx]
    simp [process_operation, hty, ham, hdb]
  · intro st op a hty ha hpos hgt
    have hau : AccountState.authorize_withdrawal
        (ClientDb.getOr (ClientDb.ensure st.clients op.client) op.client)
        op.tx a = .error .insufficientFunds := by
      rw [getOr_ensure]
      unfold AccountState.authorize_withdrawal
      have hgt2 : ¬ (ClientDb.getOr st.clients op.client).available ≥ a :=
        not_le.mpr hgt
      rw [if_pos hpos, if_neg hgt2]
    simp [process_operation, hty, ha, hau]

/-- Witness for c10_account_creation_and_output: a dispute of an unknown
    transaction on the empty state creates the fresh account for client 7
    (its only state change) and fails with UnknownTransaction. -/
theorem c10_witness :
    process_operation SysState.initial
        { op_type := .dispute, client := 7, tx := 9, amount := none } =
      ({ clients := [(7, AccountState.initial)], transactions := [] },
       some ProcError.unknownTransaction) := by
  have h := c10_account_creation_and_output.2.2.2.1 SysState.initial
      { op_type := .dispute, client := 7, tx := 9, amount := none }
      rfl rfl rfl
  simpa [SysState.initial, ClientDb.ensure, alistLookup] using h
